import Mathlib

/-!
Verification of the `wire` crate's addressing and envelope layer.

The Rust sources are shallowly embedded: each Rust type becomes a Lean
inductive/structure, each Rust function a Lean function with the same
branching structure.  Machine integers (`u8`, `u32`, `u64`, the 128-bit
`uuid::Uuid`) are modelled as `Nat`; `i64` timestamps as `Int`.  The one
panicking operation (`Target::for_all` on an `Anon` target) is modelled
with `Option`, `none` standing for the panic.  The bincode byte format
(an external collaborator of this crate) is modelled at the byte level
following bincode 2's standard configuration: little-endian, variable-width
integer encoding, enum variants tagged by a `u32` variant index.
-/

namespace Wire

/-- The user ID type (`uuid::Uuid`, a 128-bit identifier, modelled as `Nat`). -/
abbrev UserId := Nat
/-- The session ID type (`u32`). -/
abbrev SessionId := Nat
/-- The correlation ID type (`u64`, the type of `Req.corrid`). -/
abbrev CorrelationId := Nat

/-- The user ID of an anonymous target (`uuid::Uuid::nil()`, the all-zero uuid). -/
def ANON_USER_ID : UserId := 0

/-- Rust `AuthTarget` from `target.rs`: an authenticated target, either all sessions
of a user or one specific session. -/
inductive AuthTarget
  /-- Targets all sessions of a user. -/
  | All (user_id : UserId)
  /-- Targets only a specific session of a user. -/
  | Specific (user_id : UserId) (session_id : SessionId)
deriving DecidableEq, Repr

/-- Rust `AuthTarget::id`: returns the user ID of the target. -/
def AuthTarget.id : AuthTarget → UserId
  | .Specific user_id _ => user_id
  | .All user_id => user_id

/-- Rust `Target` from `target.rs`: an anonymous or authenticated target. -/
inductive Target
  /-- Targets an anonymous session. -/
  | Anon (session_id : SessionId)
  /-- Targets an authenticated session. -/
  | Auth (auth : AuthTarget)
deriving DecidableEq, Repr

/-- Rust `Target::new`: creates a `Target` from a user ID and a session ID,
deducing the variant from the anonymous sentinel. -/
def Target.new (user_id : UserId) (session_id : SessionId) : Target :=
  if user_id = ANON_USER_ID then .Anon session_id
  else .Auth (.Specific user_id session_id)

/-- Rust `Target::weak_eq`: equality that lets broader authenticated targets
compare equal. -/
def Target.weak_eq : Target → Target → Bool
  | .Anon session_id, .Anon other_session_id => session_id == other_session_id
  | .Auth a, .Auth b => a.id == b.id
  | _, _ => false

/-- Rust `Target::id`: returns the user ID of the target. -/
def Target.id : Target → UserId
  | .Anon _ => ANON_USER_ID
  | .Auth auth => auth.id

/-- Rust `Target::is_anon`. -/
def Target.is_anon : Target → Bool
  | .Anon _ => true
  | _ => false

/-- Rust `Target::is_auth`. -/
def Target.is_auth : Target → Bool
  | .Auth _ => true
  | _ => false

/-- Rust `Target::for_all`: widens to all sessions of the user.  The Rust code
panics on an `Anon` target; the panic is modelled as `none`.  All other
operations of the target model are total Lean functions. -/
def Target.for_all : Target → Option Target
  | .Anon _ => none
  | .Auth auth_target => some (.Auth (.All auth_target.id))

/-- Rust `Targets` from `target.rs`: the addressee set of an outbound message. -/
inductive Targets
  /-- Targets all sessions. -/
  | All
  /-- Targets only a set of specific targets. -/
  | Few (targets : List Target)
deriving DecidableEq, Repr

/-- Rust `Connected<M>` from `events.rs` (the `PhantomData` marker carries no data). -/
structure Connected (M : Type) where
  user_id : UserId
  session_id : SessionId

/-- Rust `Disconnected<M>` from `events.rs`. -/
structure Disconnected (M : Type) where
  user_id : UserId
  session_id : SessionId

/-- Rust `FirstConnected<M>` from `events.rs`. -/
structure FirstConnected (M : Type) where
  user_id : UserId
  session_id : SessionId

/-- Rust `impl From<Connected<M>> for Target` from `events.rs`. -/
def Connected.toTarget {M : Type} (value : Connected M) : Target :=
  if value.user_id = ANON_USER_ID then .Anon value.session_id
  else .Auth (.Specific value.user_id value.session_id)

/-- Rust `impl From<Disconnected<M>> for Target` from `events.rs`. -/
def Disconnected.toTarget {M : Type} (value : Disconnected M) : Target :=
  if value.user_id = ANON_USER_ID then .Anon value.session_id
  else .Auth (.Specific value.user_id value.session_id)

/-- Rust `impl From<FirstConnected<M>> for Target` from `events.rs`. -/
def FirstConnected.toTarget {M : Type} (value : FirstConnected M) : Target :=
  if value.user_id = ANON_USER_ID then .Anon value.session_id
  else .Auth (.Specific value.user_id value.session_id)

/-- Rust `Req<A>` from `req.rs`.  The Rust field `from` is a Lean keyword, hence
the quoted name. -/
structure Req (A : Type) where
  «from» : Target
  action : A
  corrid : CorrelationId

/-- Rust `TimestampedEvent<E>` from `res.rs` (`timestamp` is an `i64` of
milliseconds). -/
structure TimestampedEvent (E : Type) where
  timestamp : Int
  event : E

/-- Rust `Res<E>` from `res.rs`. -/
structure Res (E : Type) where
  targets : Targets
  event : TimestampedEvent E

/-- Rust `Error<E>` from `error.rs`. -/
structure Error (E : Type) where
  «to» : Target
  error : E
  corrid : CorrelationId

/-- Rust `impl PartialEq for Req` from `req.rs`: field-wise comparison. -/
def Req.eq {A : Type} (a b : Req A) : Prop :=
  a.from = b.from ∧ a.action = b.action ∧ a.corrid = b.corrid

/-- Rust `impl PartialEq for TimestampedEvent` from `res.rs`: compares only the
wrapped event, not the timestamp. -/
def TimestampedEvent.eq {E : Type} (a b : TimestampedEvent E) : Prop :=
  a.event = b.event

/-- Rust `impl PartialEq for Res` from `res.rs`: compares targets and the
timestamped event (the latter by `TimestampedEvent.eq`). -/
def Res.eq {E : Type} (a b : Res E) : Prop :=
  a.targets = b.targets ∧ a.event.eq b.event

/-- Rust `impl PartialEq for Error` from `error.rs`: field-wise comparison. -/
def Error.eq {E : Type} (a b : Error E) : Prop :=
  a.to = b.to ∧ a.error = b.error ∧ a.corrid = b.corrid

/-- Rust `bincode::error::DecodeError`, restricted to the constructors the embedded
code can produce. -/
inductive DecodeError
  /-- The input ended before the value was fully read. -/
  | unexpectedEnd
  /-- Rust `DecodeError::UnexpectedVariant`: an enum discriminant outside the
  allowed range, carrying the type name, the allowed `min`/`max`, and the
  discriminant that was found. -/
  | unexpectedVariant (typeName : String) (min max found : Nat)
  /-- Rust `DecodeError::OtherString`. -/
  | otherString (msg : String)
deriving DecidableEq, Repr

/-- Little-endian bytes of a `u16`. -/
def u16LE (n : Nat) : List Nat :=
  [n % 256, n / 256 % 256]

/-- Little-endian bytes of a `u32`. -/
def u32LE (n : Nat) : List Nat :=
  [n % 256, n / 256 % 256, n / 65536 % 256, n / 16777216 % 256]

/-- Little-endian bytes of a `u64`. -/
def u64LE (n : Nat) : List Nat :=
  u32LE (n % 2 ^ 32) ++ u32LE (n / 2 ^ 32)

/-- Little-endian bytes of a `u128`. -/
def u128LE (n : Nat) : List Nat :=
  u64LE (n % 2 ^ 64) ++ u64LE (n / 2 ^ 64)

/-- bincode 2 standard-configuration variable-width encoding of an unsigned
integer: values below 251 are a single byte; larger values are a marker byte
(251 for `u16`, 252 for `u32`, 253 for `u64`, 254 for `u128`) followed by the
little-endian fixed-width bytes. -/
def encodeVarint (n : Nat) : List Nat :=
  if n < 251 then [n]
  else if n < 2 ^ 16 then 251 :: u16LE n
  else if n < 2 ^ 32 then 252 :: u32LE n
  else if n < 2 ^ 64 then 253 :: u64LE n
  else 254 :: u128LE n

/-- bincode 2 zigzag transform for signed integers (applied before the
variable-width encoding). -/
def zigzag (n : Int) : Nat :=
  if 0 ≤ n then (2 * n).toNat else (-(2 * n) - 1).toNat

/-- Encoding of an `i32` (zigzag, then varint); the manual
`AuthTarget::encode` uses untyped literals `0`/`1`, which Rust defaults
to `i32`. -/
def encodeI32 (n : Int) : List Nat :=
  encodeVarint (zigzag n)

/-- Rust `u8::decode`: a `u8` is a single raw byte. -/
def decodeU8 : List Nat → Except DecodeError (Nat × List Nat)
  | [] => .error .unexpectedEnd
  | b :: rest => .ok (b, rest)

/-- Decoding of the variable-width unsigned encoding (inverse of
`encodeVarint`); used for `u32` and `u64` fields alike, whose claim-relevant
paths coincide. -/
def decodeVarint : List Nat → Except DecodeError (Nat × List Nat)
  | [] => .error .unexpectedEnd
  | b :: rest =>
    if b < 251 then .ok (b, rest)
    else if b = 251 then
      match rest with
      | b0 :: b1 :: r => .ok (b0 + 256 * b1, r)
      | _ => .error .unexpectedEnd
    else if b = 252 then
      match rest with
      | b0 :: b1 :: b2 :: b3 :: r =>
        .ok (b0 + 256 * b1 + 65536 * b2 + 16777216 * b3, r)
      | _ => .error .unexpectedEnd
    else if b = 253 then
      match rest with
      | b0 :: b1 :: b2 :: b3 :: b4 :: b5 :: b6 :: b7 :: r =>
        .ok (b0 + 256 * b1 + 65536 * b2 + 16777216 * b3 + 2 ^ 32 * b4
              + 2 ^ 40 * b5 + 2 ^ 48 * b6 + 2 ^ 56 * b7, r)
      | _ => .error .unexpectedEnd
    else .error (.otherString "invalid varint marker")

/-- Reads `k` raw bytes (`<[u8; k]>::decode`; bincode arrays carry no length
tag). -/
def takeBytes (k : Nat) (s : List Nat) : Except DecodeError (List Nat × List Nat) :=
  if s.length < k then .error .unexpectedEnd else .ok (s.take k, s.drop k)

/-- Big-endian byte expansion, `k` bytes. -/
def natToBytesBE : Nat → Nat → List Nat
  | 0, _ => []
  | k + 1, n => n / 256 ^ k :: natToBytesBE k (n % 256 ^ k)

/-- Rust `uuid::Uuid::as_bytes`: the 16-byte big-endian representation. -/
def uuidToBytes (u : UserId) : List Nat :=
  natToBytesBE 16 u

/-- Rust `uuid::Uuid::from_slice` on an exactly-16-byte slice (which always
succeeds): big-endian recomposition. -/
def uuidFromBytes (bs : List Nat) : UserId :=
  bs.foldl (fun acc b => acc * 256 + b) 0

/-- Manual `impl bincode::Encode for AuthTarget` from `target.rs`: an
untyped (hence `i32`) discriminant literal, the 16 uuid bytes, and for
`Specific` the `u32` session id. -/
def AuthTarget.encode : AuthTarget → List Nat
  | .All user_id => encodeI32 0 ++ uuidToBytes user_id
  | .Specific user_id session_id =>
    encodeI32 1 ++ uuidToBytes user_id ++ encodeVarint session_id

/-- Manual `impl bincode::Decode for AuthTarget` from `target.rs`: reads a
`u8` discriminant, accepts 0 (`All`) and 1 (`Specific`), and rejects anything
else with `DecodeError::UnexpectedVariant` naming the type and the allowed
range 0..=1. -/
def AuthTarget.decode (s : List Nat) : Except DecodeError (AuthTarget × List Nat) :=
  match decodeU8 s with
  | .error e => .error e
  | .ok (arm, s) =>
    match arm with
    | 0 =>
      match takeBytes 16 s with
      | .error e => .error e
      | .ok (bs, s) => .ok (.All (uuidFromBytes bs), s)
    | 1 =>
      match takeBytes 16 s with
      | .error e => .error e
      | .ok (bs, s) =>
        match decodeVarint s with
        | .error e => .error e
        | .ok (session_id, s) => .ok (.Specific (uuidFromBytes bs) session_id, s)
    | _ => .error (.unexpectedVariant "wire::target::AuthTarget" 0 1 arm)

/-- Derived `bincode::Encode` for `Target` (`#[derive(bincode::Encode)]` in
`target.rs`): a `u32` variant index, then the variant's fields (the `Auth`
field via the manual `AuthTarget` impl). -/
def Target.encode : Target → List Nat
  | .Anon session_id => encodeVarint 0 ++ encodeVarint session_id
  | .Auth auth => encodeVarint 1 ++ auth.encode

/-- Derived `bincode::Decode` for `Target`: reads the `u32` variant index,
then the variant's fields; an index outside 0..=1 is rejected with
`UnexpectedVariant`. -/
def Target.decode (s : List Nat) : Except DecodeError (Target × List Nat) :=
  match decodeVarint s with
  | .error e => .error e
  | .ok (v, s) =>
    match v with
    | 0 =>
      match decodeVarint s with
      | .error e => .error e
      | .ok (session_id, s) => .ok (.Anon session_id, s)
    | 1 =>
      match AuthTarget.decode s with
      | .error e => .error e
      | .ok (auth, s) => .ok (.Auth auth, s)
    | _ => .error (.unexpectedVariant "wire::target::Target" 0 1 v)

/-- Rust `impl bincode::Encode for Req` from `req.rs`: encodes `self.from` then
`self.action` — and nothing else (`corrid` is not written). -/
def Req.encode {A : Type} (encA : A → List Nat) (r : Req A) : List Nat :=
  r.from.encode ++ encA r.action

/-- Rust `impl bincode::Decode for Req` from `req.rs`: decodes `from`, `action`,
and then a `u64` `corrid`. -/
def Req.decode {A : Type} (decA : List Nat → Except DecodeError (A × List Nat))
    (s : List Nat) : Except DecodeError (Req A × List Nat) :=
  match Target.decode s with
  | .error e => .error e
  | .ok (f, s) =>
    match decA s with
    | .error e => .error e
    | .ok (action, s) =>
      match decodeVarint s with
      | .error e => .error e
      | .ok (corrid, s) => .ok (⟨f, action, corrid⟩, s)

/-- bincode encoding of `()` (zero bytes), used as a concrete payload codec. -/
def encodeUnit (_ : Unit) : List Nat := []

/-- bincode decoding of `()` (reads nothing). -/
def decodeUnit (s : List Nat) : Except DecodeError (Unit × List Nat) :=
  .ok ((), s)

/-- Rust `syn::Visibility`, restricted to the forms relevant here. -/
inductive Vis
  /-- Rust `pub`. -/
  | pub
  /-- Inherited (private) visibility. -/
  | inherited
deriving DecidableEq, Repr

/-- Rust `syn::Field`: an optional identifier (present for named fields, absent
for positional ones), a visibility, and a type (kept opaque as a string). -/
structure Field where
  vis : Vis
  name : Option String
  ty : String
deriving DecidableEq, Repr

/-- Rust `syn::Fields`: named, unnamed (positional), or unit. -/
inductive Fields
  /-- Rust `Fields::Named`. -/
  | named (fs : List Field)
  /-- Rust `Fields::Unnamed`. -/
  | unnamed (fs : List Field)
  /-- Rust `Fields::Unit`. -/
  | unit
deriving DecidableEq, Repr

/-- Rust `syn::Variant`: a name and its fields. -/
structure Variant where
  ident : String
  fields : Fields
deriving DecidableEq, Repr

/-- Rust `syn::Data`: the payload of a `DeriveInput`. -/
inductive Data
  /-- Rust `Data::Enum`. -/
  | enumData (variants : List Variant)
  /-- Rust `Data::Struct`. -/
  | structData
  /-- Rust `Data::Union`. -/
  | unionData
deriving DecidableEq, Repr

/-- Rust `syn::DeriveInput`: the input to the derive macro; `hasGenerics` models
`input.generics.lt_token.is_some()`, attributes are kept opaque as strings. -/
structure DeriveInput where
  ident : String
  attrs : List String
  hasGenerics : Bool
  data : Data
deriving DecidableEq, Repr

/-- One generated `pub struct` in the macro output. -/
structure StructDef where
  attrs : List String
  ident : String
  fields : Fields
deriving DecidableEq, Repr

/-- The field rewrite done by `derive_wire_obj`: keep everything, set the
visibility to `pub`. -/
def pubField (f : Field) : Field :=
  { f with vis := .pub }

/-- Rust `derive_wire_obj` from `wire-macros/src/lib.rs`: for an enum without
generics, emit one `pub struct` per variant (same name, same fields with
`pub` visibility, the input's attributes); reject non-enum input and then
generic input with a compile error. -/
def deriveWireObj (input : DeriveInput) : Except String (List StructDef) :=
  match input.data with
  | .enumData variants =>
    if input.hasGenerics then .error "wire does not support generics"
    else
      .ok (variants.map fun v =>
        match v.fields with
        | .named fs => ⟨input.attrs, v.ident, .named (fs.map pubField)⟩
        | .unnamed fs => ⟨input.attrs, v.ident, .unnamed (fs.map pubField)⟩
        | .unit => ⟨input.attrs, v.ident, .unit⟩)
  | _ => .error "wire only works on enums"

/-- The name/type skeleton of a field, i.e. everything but its visibility. -/
def Field.shape (f : Field) : Option String × String :=
  (f.name, f.ty)

/-- The name/type skeletons of a `Fields` value, in order. -/
def Fields.shapes : Fields → List (Option String × String)
  | .named fs => fs.map Field.shape
  | .unnamed fs => fs.map Field.shape
  | .unit => []

/-- Discriminates the three `Fields` kinds (0 named, 1 unnamed, 2 unit). -/
def Fields.kindTag : Fields → Nat
  | .named _ => 0
  | .unnamed _ => 1
  | .unit => 2

/-- Every field is `pub`. -/
def Fields.allPub : Fields → Prop
  | .named fs => ∀ f ∈ fs, f.vis = .pub
  | .unnamed fs => ∀ f ∈ fs, f.vis = .pub
  | .unit => True

theorem natBeqComm (m n : Nat) : (m == n) = (n == m) := by
  rw [Bool.eq_iff_iff]
  simp only [beq_iff_eq]
  exact eq_comm

/-- C1: `Target::new` returns `Anon(session_id)` exactly when the user id is
the anonymous sentinel, and `Auth(Specific(user_id, session_id))` for every
other user id. -/
theorem target_new_deduces :
    (∀ s : SessionId, Target.new ANON_USER_ID s = .Anon s) ∧
    (∀ (u : UserId) (s : SessionId), u ≠ ANON_USER_ID →
      Target.new u s = .Auth (.Specific u s)) := by
  constructor
  · intro s
    simp [Target.new]
  · intro u s h
    simp [Target.new, h]

/-- Witness for C1 at the sentinel and at a concrete non-anonymous user id. -/
theorem target_new_deduces_witness :
    Target.new ANON_USER_ID 3 = Target.Anon 3 ∧
    Target.new 5 3 = Target.Auth (.Specific 5 3) :=
  ⟨target_new_deduces.1 3, target_new_deduces.2 5 3 (by decide)⟩

/-- C4: `weak_eq` is reflexive and symmetric; `Anon` targets compare by
session id; `Auth` targets compare by user id only (so session specificity is
ignored); cross-mode comparisons are always unequal. -/
theorem weak_eq_spec :
    (∀ t : Target, t.weak_eq t = true) ∧
    (∀ t u : Target, t.weak_eq u = u.weak_eq t) ∧
    (∀ s1 s2 : SessionId, (Target.Anon s1).weak_eq (Target.Anon s2) = true ↔ s1 = s2) ∧
    (∀ a b : AuthTarget, (Target.Auth a).weak_eq (Target.Auth b) = true ↔ a.id = b.id) ∧
    (∀ (s : SessionId) (a : AuthTarget),
      (Target.Anon s).weak_eq (Target.Auth a) = false ∧
      (Target.Auth a).weak_eq (Target.Anon s) = false) := by
  refine ⟨?_, ?_, ?_, ?_, ?_⟩
  · intro t
    cases t <;> simp [Target.weak_eq]
  · intro t u
    cases t <;> cases u <;> simp [Target.weak_eq, natBeqComm]
  · intro s1 s2
    simp [Target.weak_eq]
  · intro a b
    simp [Target.weak_eq]
  · intro s a
    exact ⟨rfl, rfl⟩

/-- Witness for C4: a user's two specific sessions are weakly equal; two
distinct anonymous sessions are not. -/
theorem weak_eq_spec_witness :
    (Target.Auth (.Specific 5 1)).weak_eq (Target.Auth (.Specific 5 2)) = true ∧
    (Target.Anon 1).weak_eq (Target.Anon 2) = false :=
  ⟨(weak_eq_spec.2.2.2.1 (.Specific 5 1) (.Specific 5 2)).mpr rfl, by decide⟩

/-- C5: `for_all` widens any authenticated target (specific or broad) to
`All` of the same user and never fails there; on an anonymous target it is
the single failure point of the model (the Rust panic, modelled as `none`) —
all other operations are total functions. -/
theorem for_all_spec :
    (∀ (u : UserId) (s : SessionId),
      Target.for_all (.Auth (.Specific u s)) = some (.Auth (.All u))) ∧
    (∀ u : UserId, Target.for_all (.Auth (.All u)) = some (.Auth (.All u))) ∧
    (∀ t : Target, t.for_all = none ↔ t.is_anon = true) := by
  refine ⟨?_, ?_, ?_⟩
  · intro u s
    rfl
  · intro u
    rfl
  · intro t
    cases t <;> simp [Target.for_all, Target.is_anon]

/-- C8: `id` returns the owning user id of authenticated targets and the
anonymous sentinel for anonymous targets; composed with the deducing
constructor it returns the constructor's user id. -/
theorem target_id_spec :
    (∀ s : SessionId, Target.id (.Anon s) = ANON_USER_ID) ∧
    (∀ u : UserId, AuthTarget.id (.All u) = u) ∧
    (∀ (u : UserId) (s : SessionId), AuthTarget.id (.Specific u s) = u) ∧
    (∀ a : AuthTarget, Target.id (.Auth a) = a.id) ∧
    (∀ (u : UserId) (s : SessionId), (Target.new u s).id = u) := by
  refine ⟨fun s => rfl, fun u => rfl, fun u s => rfl, fun a => rfl, ?_⟩
  intro u s
  by_cases h : u = ANON_USER_ID <;>
    simp [Target.new, h, Target.id, AuthTarget.id]

/-- C9: the empty `Few` is a value of `Targets` distinct from `All` and from
every non-empty `Few`. -/
theorem targets_few_empty_distinct :
    Targets.Few [] ≠ Targets.All ∧
    ∀ (t : Target) (ts : List Target), Targets.Few [] ≠ Targets.Few (t :: ts) := by
  constructor
  · intro h
    cases h
  · intro t ts h
    simp at h

/-- Witness for C9 at a concrete non-empty list. -/
theorem targets_few_empty_distinct_witness :
    Targets.Few [] ≠ Targets.Few [Target.Anon 0] :=
  targets_few_empty_distinct.2 (Target.Anon 0) []

/-- C10: the `Connected`, `Disconnected` and `FirstConnected` conversions to
`Target` all coincide with the deducing constructor `Target::new` on the
event's user and session ids. -/
theorem events_to_target_spec :
    (∀ (M : Type) (c : Connected M), c.toTarget = Target.new c.user_id c.session_id) ∧
    (∀ (M : Type) (c : Disconnected M), c.toTarget = Target.new c.user_id c.session_id) ∧
    (∀ (M : Type) (c : FirstConnected M), c.toTarget = Target.new c.user_id c.session_id) :=
  ⟨fun _ _ => rfl, fun _ _ => rfl, fun _ _ => rfl⟩

/-- C3 counterexample: two `Res` values that differ in the wrapped event's
timestamp are nevertheless equal under the code's equality, so equality does
not take the timestamp into account. -/
theorem res_eq_ignores_timestamp_cex :
    Res.eq (⟨Targets.All, ⟨0, (42 : Nat)⟩⟩ : Res Nat) ⟨Targets.All, ⟨1, 42⟩⟩ ∧
    (⟨0, (42 : Nat)⟩ : TimestampedEvent Nat).timestamp ≠
      (⟨1, (42 : Nat)⟩ : TimestampedEvent Nat).timestamp :=
  ⟨⟨rfl, rfl⟩, by decide⟩

/-- C3 (amended): `Req` and `Error` equality is field-wise (hence coincides
with structural equality), while `Res` equality compares the target set and
the wrapped event only, ignoring the timestamp. -/
theorem envelope_eq_fieldwise {A E F : Type} :
    (∀ a b : Req A, a.eq b ↔ a = b) ∧
    (∀ a b : Error F, a.eq b ↔ a = b) ∧
    (∀ a b : Res E, a.eq b ↔ a.targets = b.targets ∧ a.event.event = b.event.event) := by
  refine ⟨?_, ?_, ?_⟩
  · intro a b
    cases a
    cases b
    simp [Req.eq]
  · intro a b
    cases a
    cases b
    simp [Error.eq]
  · intro a b
    simp [Res.eq, TimestampedEvent.eq]

/-- C6: decoding an `AuthTarget` from a byte stream whose leading
discriminant byte is outside the allowed range 0..=1 yields the typed
`UnexpectedVariant` error carrying the type name, the allowed range and the
found discriminant — never a default value. -/
theorem authtarget_decode_rejects :
    ∀ (arm : Nat) (rest : List Nat), 2 ≤ arm → arm ≤ 255 →
      AuthTarget.decode (arm :: rest) =
        .error (.unexpectedVariant "wire::target::AuthTarget" 0 1 arm) := by
  intro arm rest h1 _
  obtain ⟨k, rfl⟩ : ∃ k, arm = k + 2 := ⟨arm - 2, by omega⟩
  rfl

/-- Witness for C6 at discriminant byte 2. -/
theorem authtarget_decode_rejects_witness :
    AuthTarget.decode [2] =
      .error (.unexpectedVariant "wire::target::AuthTarget" 0 1 2) :=
  authtarget_decode_rejects 2 [] (by decide) (by decide)

/-- C7: on an enum without type parameters the transform emits one struct
per variant, keeping the variant's name, its field kind (named, positional,
unit), each field's name and type, and the input's attributes, while making
every field public; an enum with type parameters and a non-enum input are
both rejected with a compile error. -/
theorem wire_obj_spec (input : DeriveInput) :
    (∀ variants, input.data = .enumData variants → input.hasGenerics = false →
      (deriveWireObj input).isOk = true ∧
      ∀ outs, deriveWireObj input = .ok outs →
        outs.length = variants.length ∧
        ∀ (i : Nat) (h1 : i < outs.length) (h2 : i < variants.length),
          (outs.get ⟨i, h1⟩).ident = (variants.get ⟨i, h2⟩).ident ∧
          (outs.get ⟨i, h1⟩).attrs = input.attrs ∧
          (outs.get ⟨i, h1⟩).fields.kindTag = (variants.get ⟨i, h2⟩).fields.kindTag ∧
          (outs.get ⟨i, h1⟩).fields.shapes = (variants.get ⟨i, h2⟩).fields.shapes ∧
          (outs.get ⟨i, h1⟩).fields.allPub) ∧
    (∀ variants, input.data = .enumData variants → input.hasGenerics = true →
      deriveWireObj input = .error "wire does not support generics") ∧
    ((∀ variants, input.data ≠ .enumData variants) →
      deriveWireObj input = .error "wire only works on enums") := by
  refine ⟨?_, ?_, ?_⟩
  · intro variants hdata hgen
    have hres : deriveWireObj input =
        .ok (variants.map fun v =>
          match v.fields with
          | .named fs => ⟨input.attrs, v.ident, .named (fs.map pubField)⟩
          | .unnamed fs => ⟨input.attrs, v.ident, .unnamed (fs.map pubField)⟩
          | .unit => ⟨input.attrs, v.ident, .unit⟩) := by
      simp [deriveWireObj, hdata, hgen]
    refine ⟨by rw [hres]; rfl, ?_⟩
    intro outs houts
    rw [hres] at houts
    obtain rfl : outs = _ := (Except.ok.injEq _ _).mp houts.symm
    refine ⟨by simp, ?_⟩
    intro i hi1 hi2
    rw [List.get_map]
    rcases hv : (variants.get ⟨i, hi2⟩).fields with fs | fs | _ <;>
      simp [hv, Fields.kindTag, Fields.shapes, Fields.allPub, Field.shape, pubField,
        List.map_map, Function.comp]
  · intro variants hdata hgen
    simp [deriveWireObj, hdata, hgen]
  · intro hne
    rcases hd : input.data with variants | _ | _
    · exact absurd hd (hne variants)
    · simp [deriveWireObj, hd]
    · simp [deriveWireObj, hd]

/-- Witness for C7: a two-variant enum is accepted, a generic enum and a
struct are rejected with the respective compile errors. -/
theorem wire_obj_spec_witness :
    (deriveWireObj ⟨"MyEnum", ["derive(Debug)"], false,
      .enumData [⟨"Foo", .named [⟨.inherited, some "a", "i32"⟩,
                                  ⟨.inherited, some "b", "String"⟩]⟩,
                 ⟨"Bar", .unnamed [⟨.inherited, none, "i32"⟩,
                                   ⟨.inherited, none, "i32"⟩]⟩]⟩).isOk = true ∧
    deriveWireObj ⟨"MyEnum", [], true, .enumData []⟩ =
      .error "wire does not support generics" ∧
    deriveWireObj ⟨"MyStruct", [], false, .structData⟩ =
      .error "wire only works on enums" :=
  ⟨((wire_obj_spec _).1 _ rfl rfl).1,
   (wire_obj_spec _).2.1 [] rfl rfl,
   (wire_obj_spec _).2.2 (fun _ h => by cases h)⟩

theorem length_natToBytesBE (k n : Nat) : (natToBytesBE k n).length = k := by
  induction k generalizing n with
  | zero => rfl
  | succ k ih => simp [natToBytesBE, ih]

theorem takeBytes_append (bs rest : List Nat) :
    takeBytes bs.length (bs ++ rest) = .ok (bs, rest) := by
  have h : ¬ ((bs ++ rest).length < bs.length) := by
    rw [List.length_append]
    omega
  simp [takeBytes, h, List.take_left, List.drop_left]

theorem takeBytes_uuid (u : UserId) (rest : List Nat) :
    takeBytes 16 (uuidToBytes u ++ rest) = .ok (uuidToBytes u, rest) := by
  have h := takeBytes_append (uuidToBytes u) rest
  rwa [show (uuidToBytes u).length = 16 from length_natToBytesBE 16 u] at h

theorem decodeVarint_encodeVarint (n : Nat) (rest : List Nat) (h : n < 2 ^ 64) :
    decodeVarint (encodeVarint n ++ rest) = .ok (n, rest) := by
  have h4 : n < 18446744073709551616 := by omega
  by_cases h1 : n < 251
  · simp [encodeVarint, decodeVarint, h1]
  · by_cases h2 : n < 65536
    · simp [encodeVarint, decodeVarint, u16LE, h1, h2]
      omega
    · by_cases h3 : n < 4294967296
      · simp [encodeVarint, decodeVarint, u32LE, h1, h2, h3]
        omega
      · simp [encodeVarint, decodeVarint, u64LE, u32LE, h1, h2, h3, h4]
        omega

theorem decodeVarint_encodeVarint_big (n : Nat) (rest : List Nat) (h : ¬ n < 2 ^ 64) :
    decodeVarint (encodeVarint n ++ rest) =
      .error (.otherString "invalid varint marker") := by
  have h1 : ¬ n < 251 := by omega
  have h2 : ¬ n < 65536 := by omega
  have h3 : ¬ n < 4294967296 := by omega
  have h4 : ¬ n < 18446744073709551616 := by omega
  simp [encodeVarint, decodeVarint, u128LE, u64LE, u32LE, h1, h2, h3, h4]

/-- C2 refuted: for every `Req<()>` value, decoding its bincode encoding
fails (the encoder omits `corrid`, so the decoder either runs out of input,
or — for authenticated senders — trips over the `i32`-encoded-but-`u8`-read
`AuthTarget` discriminant), so `decode(encode(x)) == x` never holds. -/
theorem req_bincode_roundtrip_fails (r : Req Unit) :
    (Req.decode decodeUnit (Req.encode encodeUnit r)).isOk = false := by
  obtain ⟨f, a, c⟩ := r
  cases f with
  | Anon s =>
    by_cases hs : s < 2 ^ 64
    · have h1 : decodeVarint (encodeVarint 0 ++ encodeVarint s) =
          .ok (0, encodeVarint s) :=
        decodeVarint_encodeVarint 0 _ (by norm_num)
      have h2 : decodeVarint (encodeVarint s) = .ok (s, []) := by
        have h := decodeVarint_encodeVarint s [] hs
        rwa [List.append_nil] at h
      have h3 : decodeVarint ([] : List Nat) = .error .unexpectedEnd := rfl
      simp [Req.encode, Req.decode, Target.encode, Target.decode, encodeUnit,
        decodeUnit, List.append_assoc, h1, h2, h3, Except.isOk, Except.toBool]
    · have h1 : decodeVarint (encodeVarint 0 ++ encodeVarint s) =
          .ok (0, encodeVarint s) :=
        decodeVarint_encodeVarint 0 _ (by norm_num)
      have h2 : decodeVarint (encodeVarint s) =
          .error (.otherString "invalid varint marker") := by
        have h := decodeVarint_encodeVarint_big s [] hs
        rwa [List.append_nil] at h
      simp [Req.encode, Req.decode, Target.encode, Target.decode, encodeUnit,
        decodeUnit, List.append_assoc, h1, h2, Except.isOk, Except.toBool]
  | Auth auth =>
    cases auth with
    | All u =>
      have hz : encodeI32 0 = [0] := rfl
      have h1 : decodeVarint (encodeVarint 1 ++ (0 :: uuidToBytes u)) =
          .ok (1, 0 :: uuidToBytes u) :=
        decodeVarint_encodeVarint 1 _ (by norm_num)
      have h2 : takeBytes 16 (uuidToBytes u) = .ok (uuidToBytes u, []) := by
        have h := takeBytes_uuid u []
        rwa [List.append_nil] at h
      have h3 : decodeVarint ([] : List Nat) = .error .unexpectedEnd := rfl
      simp [Req.encode, Req.decode, Target.encode, Target.decode,
        AuthTarget.encode, AuthTarget.decode, encodeUnit, decodeUnit,
        List.append_assoc, hz, h1, h2, h3, decodeU8, Except.isOk,
        Except.toBool]
    | Specific u s =>
      have hz : encodeI32 1 = [2] := rfl
      have h1 : decodeVarint
          (encodeVarint 1 ++ (2 :: (uuidToBytes u ++ encodeVarint s))) =
          .ok (1, 2 :: (uuidToBytes u ++ encodeVarint s)) :=
        decodeVarint_encodeVarint 1 _ (by norm_num)
      simp [Req.encode, Req.decode, Target.encode, Target.decode,
        AuthTarget.encode, AuthTarget.decode, encodeUnit, decodeUnit,
        List.append_assoc, hz, h1, decodeU8, Except.isOk, Except.toBool]

/-- C2, the concrete failing input: `Req { from: Anon(7), action: (),
corrid: 5 }` encodes to the two bytes `[0, 7]`, and decoding stops with
`UnexpectedEnd` when it looks for the never-written `corrid`. -/
theorem req_bincode_roundtrip_fails_witness :
    (Req.decode decodeUnit (Req.encode encodeUnit
      (⟨Target.Anon 7, (), 5⟩ : Req Unit))).isOk = false :=
  req_bincode_roundtrip_fails ⟨Target.Anon 7, (), 5⟩

end Wire
